import Mathlib

/-!
# ifconfig.io: the request handler `mainHandler` of `main.go`

A shallow embedding of `stringInSlice`, `mainHandler` and `Logger` together
with the library functions they call, followed by theorems about the attribute
set the handler builds and the response it writes.

Conventions of the embedding.

* Go strings are Lean strings; a one-byte separator is a `Char`.
* A Go `(value, error)` pair whose value is meaningful only when the error is
  nil is an `Option`.
* What the handler obtains from the outside world (name resolution) is read
  from an `Env`.
* The standard library is the current one: `net.ParseIP` parses with
  `net/netip`, and `encoding/json` does not encode an `http.Request`.
* The handler runs in a small state-and-panic monad over the gin `Context`;
  a run-time panic (nil pointer dereference, index out of range) ends the run
  and keeps the context as it was at that point.
-/

set_option autoImplicit false

namespace Ifconfig

/-! ## Package `strings` -/

namespace strings

/-- Worker of `Split`: `cur` is the piece being read, most recent byte first. -/
def splitAux (sep : Char) : List Char → List Char → List String
  | [], cur => [String.mk cur.reverse]
  | c :: cs, cur =>
    if c = sep then String.mk cur.reverse :: splitAux sep cs []
    else splitAux sep cs (c :: cur)

/-- Go `strings.Split(s, sep)` for a one-byte separator, which is how both call
sites of `main.go` use it (`"."` and `"/"`): the substrings of `s` between the
occurrences of `sep`, in order. -/
def Split (s : String) (sep : Char) : List String :=
  splitAux sep s.data []

end strings

/-! ## Package `net` -/

namespace net

/-- Go `net.IP`, a byte slice; the nil slice is `[]`. -/
abbrev IP := List Nat

/-- Go `net.TCPAddr`. -/
structure TCPAddr where
  IP : IP
  Port : Int
  Zone : String
  deriving DecidableEq

/-- Value of a hexadecimal digit, as the three branches of the group loop of
`parseIPv6` compute it. -/
def hexVal (c : Char) : Option Nat :=
  if '0' ≤ c ∧ c ≤ '9' then some (c.toNat - '0'.toNat)
  else if 'a' ≤ c ∧ c ≤ 'f' then some (c.toNat - 'a'.toNat + 10)
  else if 'A' ≤ c ∧ c ≤ 'F' then some (c.toNat - 'A'.toNat + 10)
  else none

/-- Go `net.IPv4(a, b, c, d)`: the 16-byte form of an IPv4 address. -/
def IPv4 (a b c d : Nat) : IP :=
  [0, 0, 0, 0, 0, 0, 0, 0, 0, 0, 0xff, 0xff, a, b, c, d]

/-- Go `parseIPv4Fields` of `net/netip`, on the whole of `s`: `val` is the
value of the octet being read, `digLen` the number of its digits read so far,
`acc` the octets already closed by a dot. An octet has no leading zero and is
at most 255; a dot stands after a digit and before one; there are four octets. -/
def parseIPv4Fields : List Char → Nat → Nat → List Nat → Option (List Nat)
  | [], val, _, acc => if acc.length < 3 then none else some (acc ++ [val])
  | c :: cs, val, digLen, acc =>
    if '0' ≤ c ∧ c ≤ '9' then
      if digLen = 1 ∧ val = 0 then none
      else
        let val' := val * 10 + (c.toNat - '0'.toNat)
        if val' > 255 then none else parseIPv4Fields cs val' (digLen + 1) acc
    else if c = '.' then
      if digLen = 0 ∨ cs = [] then none
      else if acc.length = 3 then none
      else parseIPv4Fields cs 0 0 (acc ++ [val])
    else none

/-- Go `parseIPv4` of `net/netip`, in the 16-byte form `net.ParseIP` returns;
nil (`[]`) when the text is not a dotted-decimal address. -/
def parseIPv4 (s : List Char) : IP :=
  match parseIPv4Fields s 0 0 [] with
  | some [a, b, c, d] => IPv4 a b c d
  | _ => []

/-- The loop of `parseIPv6` that reads one group of hexadecimal digits: `acc`
is its value, `off` the number of digits read. The result is the value, the
number of digits and the unread text; `none` is a group of more than four
digits. -/
def hexGroup : List Char → Nat → Nat → Option (Nat × Nat × List Char)
  | [], acc, off => some (acc, off, [])
  | c :: cs, acc, off =>
    match hexVal c with
    | some d =>
      if off > 3 then none
      else if acc * 16 + d > 0xFFFF then none
      else hexGroup cs (acc * 16 + d) (off + 1)
    | none => some (acc, off, c :: cs)

/-- Main loop of `parseIPv6`. `acc` are the bytes written so far (their number
is the index `i` of the source), `ell` the position of the ellipsis if one was
seen. The result is the bytes, the ellipsis and the unread rest of the string;
`none` is the source returning an error from inside the loop. -/
def parseIPv6Loop : Nat → List Char → List Nat → Option Nat →
    Option (List Nat × Option Nat × List Char)
  | 0, s, acc, ell => some (acc, ell, s)
  | fuel + 1, s, acc, ell =>
    if acc.length ≥ 16 then some (acc, ell, s)
    else
      match hexGroup s 0 0 with
      | none => none
      | some (n, off, s1) =>
        if off = 0 then none
        else if s1.head? = some '.' then
          if ell.isNone ∧ acc.length ≠ 12 then none
          else if acc.length + 4 > 16 then none
          else
            match parseIPv4Fields s 0 0 [] with
            | some [a, b, c, d] => some (acc ++ [a, b, c, d], ell, [])
            | _ => none
        else
          let acc := acc ++ [n / 256, n % 256]
          match s1 with
          | [] => some (acc, ell, [])
          | c :: s2 =>
            if c ≠ ':' then none
            else if s2 = [] then none
            else
              match s2 with
              | ':' :: s3 =>
                if ell.isSome then none
                else if s3 = [] then some (acc, some acc.length, [])
                else parseIPv6Loop fuel s3 acc (some acc.length)
              | _ => parseIPv6Loop fuel s2 acc ell

/-- Go `parseIPv6` of `net/netip` on the address part of the text (what stands
before a `%`). -/
def parseIPv6 (s : List Char) : IP :=
  let start : List Char × Option Nat :=
    match s with
    | ':' :: ':' :: t => (t, some 0)
    | _ => (s, none)
  if start.2.isSome ∧ start.1 = [] then List.replicate 16 0
  else
    match parseIPv6Loop 8 start.1 [] start.2 with
    | none => []
    | some (acc, ell, rest) =>
      if rest ≠ [] then []
      else if acc.length < 16 then
        match ell with
        | none => []
        | some e => acc.take e ++ List.replicate (16 - acc.length) 0 ++ acc.drop e
      else if ell.isSome then []
      else acc

/-- Scan of `netip.ParseAddr` for the first `.`, `:` or `%`, followed by what
`net.ParseIP` does with the result. A text with a `%` gives nil: before an
address it is an error, inside an IPv4 address an unexpected character, and
after an IPv6 address it starts a zone, which is an error when empty and which
`net.ParseIP` refuses otherwise. -/
def parseIPScan (s : List Char) : List Char → IP
  | [] => []
  | c :: cs =>
    if c = '.' then parseIPv4 s
    else if c = ':' then (if '%' ∈ s then [] else parseIPv6 s)
    else if c = '%' then []
    else parseIPScan s cs

/-- Go `net.ParseIP`, which parses with `netip.ParseAddr`: the address written
in `s`, in 16-byte form, or nil (`[]`) when `s` is not the text of an IPv4 or
IPv6 address. Several texts give one address: hexadecimal digits in either
case, zero groups written out or shortened to `::`, zeros before a hexadecimal
group of at most four digits, an IPv4 address in its IPv6-mapped form. -/
def ParseIP (s : String) : IP :=
  parseIPScan s.data s.data

/-- Go `isZeros`. -/
def isZeros (p : List Nat) : Bool := p.all (fun b => b == 0)

/-- Go `IP.To4`. -/
def IP.To4 (ip : IP) : IP :=
  if ip.length = 4 then ip
  else if ip.length = 16 ∧ isZeros (ip.take 10) = true ∧ ip.getD 10 0 = 0xff ∧ ip.getD 11 0 = 0xff then
    ip.drop 12
  else []

/-- Go `hexString`: two lower-case hexadecimal digits for each byte. -/
def hexString (b : List Nat) : String :=
  String.mk (b.flatMap (fun x => [Nat.digitChar (x / 16 % 16), Nat.digitChar (x % 16)]))

/-- Go `itod`: decimal digits. -/
def itod (n : Nat) : String := String.mk (Nat.toDigits 10 n)

/-- Go `itox(n, 1)`: lower-case hexadecimal digits, no padding. -/
def itox (n : Nat) : String := String.mk (Nat.toDigits 16 n)

/-- The 16-bit group starting at byte `i`. -/
def group (p : IP) (i : Nat) : Nat := p.getD i 0 * 256 + p.getD (i + 1) 0

/-- Number of zero groups at the head of a list of bytes. -/
def zeroRun : List Nat → Nat
  | 0 :: 0 :: rest => zeroRun rest + 1
  | _ => 0

/-- The loop of `IP.String` that finds the longest run of zero groups: `p` is
the part of the address from byte `i` on, `e` the best run `(e0, e1)` so far. -/
def findRun : List Nat → Nat → Int × Int → Int × Int
  | a :: b :: rest, i, e =>
    let j := i + 2 * zeroRun (a :: b :: rest)
    let e' : Int × Int := if j > i ∧ ((j : Int) - (i : Int) > e.2 - e.1) then ((i : Int), (j : Int)) else e
    findRun rest (i + 2) e'
  | _, _, e => e

/-- The printing loop of `IP.String`. -/
def printFrom (p : IP) (e0 e1 : Int) : Nat → Nat → String → String
  | 0, _, s => s
  | fuel + 1, i, s =>
    if i ≥ 16 then s
    else if (i : Int) = e0 then
      let s := s ++ "::"
      let i := e1.toNat
      if i ≥ 16 then s else printFrom p e0 e1 fuel (i + 2) (s ++ itox (group p i))
    else
      let s := if i > 0 then s ++ ":" else s
      printFrom p e0 e1 fuel (i + 2) (s ++ itox (group p i))

/-- Go `IP.String`: dotted decimal for an IPv4 address, else lower-case
hexadecimal groups with the longest run of zero groups shortened to `::`. -/
def IP.String (ip : IP) : String :=
  if ip.length = 0 then "<nil>"
  else
    let p4 := IP.To4 ip
    if p4.length = 4 then
      itod (p4.getD 0 0) ++ "." ++ itod (p4.getD 1 0) ++ "." ++ itod (p4.getD 2 0) ++ "." ++
        itod (p4.getD 3 0)
    else if ip.length ≠ 16 then "?" ++ hexString ip
    else
      let e := findRun ip 0 (-1, -1)
      let e := if e.2 - e.1 ≤ 2 then ((-1 : Int), (-1 : Int)) else e
      printFrom ip e.1 e.2 8 0 ""

end net

/-! ## Package `fmt` and interface values -/

/-- The Go values that `mainHandler` passes as `interface{}`: the nil
interface, a string, an int, and a `net.IP` (which prints through its `String`
method). -/
inductive Value where
  | nil
  | str (s : String)
  | int (n : Int)
  | ip (p : net.IP)
  deriving DecidableEq

namespace fmt

/-- Decimal text of a Go int. -/
def itoa : Int → String
  | Int.ofNat n => net.itod n
  | Int.negSucc n => "-" ++ net.itod (n + 1)

/-- Go `fmt.Sprint` of one operand (the verb `%v`). -/
def Sprint : Value → String
  | Value.nil => "<nil>"
  | Value.str s => s
  | Value.int n => itoa n
  | Value.ip p => net.IP.String p

/-- Go `fmt.Sprintln` of one operand: its `%v` text and a newline. -/
def Sprintln (a : Value) : String := Sprint a ++ "\n"

end fmt

/-! ## Package `net/http`: the request -/

namespace textproto

/-- Loop of `CanonicalMIMEHeaderKey`; `upper` says whether the next letter is
to be upper case. -/
def canonAux : Bool → List Char → List Char
  | _, [] => []
  | upper, c :: cs =>
    let c' := if upper then c.toUpper else c.toLower
    c' :: canonAux (c' == '-') cs

/-- Go `textproto.CanonicalMIMEHeaderKey` on a header name made of letters,
digits and hyphens (every name `main.go` passes is one): the first letter and
each letter after a hyphen in upper case, the others in lower case. -/
def CanonicalMIMEHeaderKey (s : String) : String :=
  String.mk (canonAux true s.data)

end textproto

/-- Go `http.Header`, a map from canonical header name to the values sent. -/
abbrev Header := List (String × List String)

/-- Go `Header.Get`: the first value stored under the canonical form of
`key`, or `""` when there is none. -/
def Header.Get (h : Header) (key : String) : String :=
  match h.lookup (textproto.CanonicalMIMEHeaderKey key) with
  | some (v :: _) => v
  | _ => ""

/-- The fields of Go `http.Request` that `main.go` reads; `URL` is the path of
the request URL. -/
structure Request where
  Method : String
  URL : String
  Proto : String
  Header : Header
  RemoteAddr : String
  deriving DecidableEq

/-- Go `Request.UserAgent`. -/
def Request.UserAgent (r : Request) : String :=
  Header.Get r.Header "User-Agent"

/-! ## Package `gin`: the context -/

/-- One entry of gin `Params`. -/
structure Param where
  Key : String
  Value : String
  deriving DecidableEq

/-- The gin type `Params`. -/
abbrev Params := List Param

/-- The gin method `Params.ByName`: the value of the first parameter named
`name`, or `""`. The route `/` has no parameter, the route `/:field` has one. -/
def Params.ByName : Params → String → String
  | [], _ => ""
  | p :: ps, name => if p.Key = name then p.Value else Params.ByName ps name

/-- The map gin `Context.Keys`, with one entry per key. -/
abbrev Keys := List (String × Value)

/-- Map assignment `m[key] = v`. -/
def Keys.set (m : Keys) (key : String) (v : Value) : Keys :=
  match m with
  | [] => [(key, v)]
  | (k, w) :: rest => if k = key then (key, v) :: rest else (k, w) :: Keys.set rest key v

/-- Map read `m[key]` with its `ok` flag. -/
def Keys.get (m : Keys) (key : String) : Option Value :=
  match m with
  | [] => none
  | (k, w) :: rest => if k = key then some w else Keys.get rest key

/-- The keys of the map. -/
def Keys.keys (m : Keys) : List String := m.map Prod.fst

/-- What a render call hands to the serializer. -/
inductive Obj where
  | keys (m : Keys)
  | request (r : Request)
  deriving DecidableEq

/-- One write to the response body. The text of a JSON document, of a rendered
template and of `%v` applied to a map is left to the serializer; the chunk
records what was serialized. -/
inductive Chunk where
  /-- Bytes written as they are (`c.String` without operands). -/
  | plain (s : String)
  /-- Text `fmt.Sprintf(format, obj)` (`c.String` with an operand). -/
  | formatted (format : String) (obj : Obj)
  /-- Text `json.Encode(obj)` (`c.JSON`). -/
  | json (obj : Obj)
  /-- The template `name` executed on `obj` (`c.HTML`). -/
  | html (name : String) (obj : Obj)
  deriving DecidableEq

/-- The request context of gin with the state of its response writer, and the
log of reverse lookups made while handling the request. -/
structure Context where
  /-- Field `c.Request`. -/
  Request : Ifconfig.Request
  /-- Field `c.Params`. -/
  Params : Ifconfig.Params
  /-- Field `c.Keys`, empty when a request arrives. -/
  Keys : Ifconfig.Keys
  /-- Whether `c.Abort()` was called (gin sets the handler index to `AbortIndex`). -/
  aborted : Bool
  /-- The status line sent to the client: the code of the first write, if any. -/
  status : Option Nat
  /-- What was written to the body, in order. -/
  body : List Chunk
  /-- The addresses `net.LookupAddr` was asked about, in order. -/
  lookups : List String
  deriving DecidableEq

/-- The context gin hands to the first handler of a request. -/
def Context.new (r : Ifconfig.Request) (ps : Ifconfig.Params) : Context :=
  { Request := r, Params := ps, Keys := [], aborted := false, status := none, body := [],
    lookups := [] }

/-- How a run of a handler ends. -/
inductive Result (α : Type) where
  | ok (val : α) (c : Context)
  | panic (msg : String) (c : Context)

/-- The context at the end of a run. -/
def Result.ctx {α : Type} : Result α → Context
  | Result.ok _ c => c
  | Result.panic _ c => c

/-- A computation on the context that may panic. -/
def Handler (α : Type) : Type := Context → Result α

namespace Handler

/-- Sequencing: a panic ends the run. -/
def andThen {α β : Type} (m : Handler α) (f : α → Handler β) : Handler β :=
  fun c =>
    match m c with
    | Result.ok a c' => f a c'
    | Result.panic e c' => Result.panic e c'

instance : Monad Handler where
  pure a := fun c => Result.ok a c
  bind := andThen

/-- The current context. -/
def read : Handler Context := fun c => Result.ok c c

/-- A run-time panic. -/
def throw {α : Type} (msg : String) : Handler α := fun c => Result.panic msg c

/-- Slice indexing `xs[i]`, which panics out of range. -/
def index (xs : List String) (i : Nat) : Handler String :=
  match xs.get? i with
  | some x => pure x
  | none => throw "index out of range"

/-- Dereference of a `*net.TCPAddr`, which panics on nil. -/
def deref (p : Option net.TCPAddr) : Handler net.TCPAddr :=
  match p with
  | some a => pure a
  | none => throw "invalid memory address or nil pointer dereference"

end Handler

/-- The gin method `c.Abort()`: it marks the context so that no pending handler
is called. It does not end the handler that calls it. -/
def Abort : Handler Unit :=
  fun c => Result.ok () { c with aborted := true }

/-- The gin method `c.Set(key, item)`. -/
def Set (key : String) (item : Value) : Handler Unit :=
  fun c => Result.ok () { c with Keys := Keys.set c.Keys key item }

/-- The gin method `c.Get(key)` of the version `main.go` is written against: the
value and a nil error, or nil and an error (`true`) when the key does not exist. -/
def Get (key : String) : Handler (Value × Bool) :=
  fun c =>
    match Keys.get c.Keys key with
    | some v => Result.ok (v, false) c
    | none => Result.ok (Value.nil, true) c

/-- A render call of gin: the status code is sent with the first write only (a
later `WriteHeader` does not change the status line already sent), and the
chunk is appended to the body. -/
def write (code : Nat) (ch : Chunk) : Handler Unit :=
  fun c =>
    Result.ok () { c with status := some (c.status.getD code), body := c.body ++ [ch] }

/-- Call `c.String(code, format)` with no operands. The plain-text render of
gin applies `fmt.Sprintf` only when operands are given; without any it writes
`format` as it is, so a `%` in it is not read as a verb. -/
def String0 (code : Nat) (format : String) : Handler Unit :=
  write code (Chunk.plain format)

/-- Call `c.String(code, format, obj)`: gin writes `fmt.Sprintf(format, obj)`. -/
def String1 (code : Nat) (format : String) (obj : Obj) : Handler Unit :=
  write code (Chunk.formatted format obj)

/-- The gin method `c.JSON(code, obj)`. The map `c.Keys` of strings and an int
always encodes, and its JSON text is written. An `http.Request` does not
encode (it has a field of function type, which `encoding/json` refuses): the
encoder returns its error before it writes anything, and gin records the error
and aborts the context, so the handler has written nothing. -/
def JSON (code : Nat) (obj : Obj) : Handler Unit :=
  match obj with
  | Obj.keys m => write code (Chunk.json (Obj.keys m))
  | Obj.request _ => fun c => Result.ok () { c with aborted := true }

/-- The gin method `c.HTML(code, name, obj)`. -/
def HTML (code : Nat) (name : String) (obj : Obj) : Handler Unit :=
  write code (Chunk.html name obj)

/-! ## The outside world -/

/-- Name resolution as the handler sees it. -/
structure Env where
  /-- Call `net.ResolveTCPAddr("tcp", addr)`: the address, or `none` when the
  call returns an error (and a nil pointer). -/
  ResolveTCPAddr : String → Option net.TCPAddr
  /-- Call `net.LookupAddr(addr)`: `none` when it returns an error; otherwise the
  first name and the other names (the resolver reports an error when it finds
  no name, so a nil error comes with at least one). -/
  LookupAddr : String → Option (String × List String)

/-- Reverse lookup of `addr`, recorded in the log. -/
def LookupAddr (env : Env) (addr : String) : Handler (Option (String × List String)) :=
  fun c => Result.ok (env.LookupAddr addr) { c with lookups := c.lookups ++ [addr] }

/-! ## `main.go` -/

/-- Function `stringInSlice` of `main.go`. -/
def stringInSlice (a : String) : List String → Bool
  | [] => false
  | b :: list => if b = a then true else stringInSlice a list

/-- Function `mainHandler` of `main.go`. -/
def mainHandler (env : Env) : Handler Unit := do
  let c ← Handler.read
  let fields := strings.Split (Params.ByName c.Params "field") '.'
  let ip := env.ResolveTCPAddr c.Request.RemoteAddr
  (if ip.isNone then Abort else pure ())
  let cfIP := net.ParseIP (Header.Get c.Request.Header "CF-Connecting-IP")
  let ip ← (if cfIP ≠ [] then do
      let a ← Handler.deref ip
      pure (some { a with IP := cfIP })
    else pure ip : Handler (Option net.TCPAddr))
  let a ← Handler.deref ip
  Set "ip" (Value.str (net.IP.String a.IP))
  Set "port" (Value.int a.Port)
  Set "ua" (Value.str c.Request.UserAgent)
  Set "lang" (Value.str (Header.Get c.Request.Header "Accept-Language"))
  Set "encoding" (Value.str (Header.Get c.Request.Header "Accept-Encoding"))
  Set "method" (Value.str c.Request.Method)
  Set "mime" (Value.str (Header.Get c.Request.Header "Accept"))
  Set "referer" (Value.str (Header.Get c.Request.Header "Referer"))
  Set "forwarded" (Value.str (Header.Get c.Request.Header "X-Forwarded-For"))
  Set "country_code" (Value.str (Header.Get c.Request.Header "CF-IPCountry"))
  -- Only lookup hostname if the results are going to need it.
  let f0 ← Handler.index fields 0
  (if stringInSlice f0 ["", "all", "host"] then do
      let hostnames ← LookupAddr env (net.IP.String a.IP)
      match hostnames with
      | none => Set "host" (Value.str "")
      | some names => Set "host" (Value.str names.1)
    else pure ())
  let wantsJSON := decide (fields.length ≥ 2) && decide (fields.get? 1 = some "json")
  let ua := strings.Split c.Request.UserAgent '/'
  let f0 ← Handler.index fields 0
  if f0 = "" then
    -- If the user is using curl, then we should just return the IP, else we show the home page.
    let ua0 ← Handler.index ua 0
    let c ← Handler.read
    if ua0 = "curl" then
      String0 200 (fmt.Sprintln (Value.ip a.IP))
    else
      HTML 200 "index.html" (Obj.keys c.Keys)
  else if f0 = "request" then
    JSON 200 (Obj.request c.Request)
  else if f0 = "all" then
    let c ← Handler.read
    if wantsJSON then
      JSON 200 (Obj.keys c.Keys)
    else
      String1 200 "%v" (Obj.keys c.Keys)
  else do
    let (fieldResult, err) ← Get f0
    (if err then String0 404 "Not Found" else pure ())
    String0 200 (fmt.Sprintln fieldResult)

/-- The gin method `c.Next()` as a middleware calls it: the handlers registered
after the middleware run in order, and once the context is aborted none of
them is called. -/
def Next : List (Handler Unit) → Handler Unit
  | [] => pure ()
  | h :: pending => fun c =>
    if c.aborted then Result.ok () c else (h >>= fun _ => Next pending) c

/-- Function `Logger` of `main.go`, given the handlers registered after it. The
log line goes to standard output, which the context does not hold; its operand
`ip.IP` dereferences the address. -/
def Logger (env : Env) (pending : List (Handler Unit)) : Handler Unit := do
  let c ← Handler.read
  let ip := env.ResolveTCPAddr c.Request.RemoteAddr
  (if ip.isNone then Abort else pure ())
  -- before request
  Next pending
  -- after request
  let _ ← Handler.deref ip
  pure ()

/-- The handlers of this repository that `main` runs on a routed request, in
the order it registers them: `Logger`, then `mainHandler`. -/
def serve (env : Env) : Handler Unit :=
  Logger env [mainHandler env]

/-- The two routes of `main` on the path of a request: `/` binds no parameter,
`/:field` binds `field` to a path of one non-empty segment. -/
def route (path : String) : Option Params :=
  match path.data with
  | ['/'] => some []
  | '/' :: seg =>
    if '/' ∈ seg then none else some [{ Key := "field", Value := String.mk seg }]
  | _ => none

/-! ## Parts of `mainHandler` and its result in closed form -/

/-- Lines 77 to 84 of `mainHandler`, the conditional reverse lookup, on their own. -/
def lookupHost (env : Env) (f0 : String) (a : net.TCPAddr) : Handler Unit :=
  (if stringInSlice f0 ["", "all", "host"] then do
      let hostnames ← LookupAddr env (net.IP.String a.IP)
      match hostnames with
      | none => Set "host" (Value.str "")
      | some names => Set "host" (Value.str names.1)
    else pure ())

/-- Lines 86 to 117 of `mainHandler`, the choice of the response, on their own. -/
def respond (fields : List String) (r : Request) (a : net.TCPAddr) : Handler Unit := do
  let wantsJSON := decide (fields.length ≥ 2) && decide (fields.get? 1 = some "json")
  let ua := strings.Split r.UserAgent '/'
  let f0 ← Handler.index fields 0
  if f0 = "" then
    let ua0 ← Handler.index ua 0
    let c ← Handler.read
    if ua0 = "curl" then
      String0 200 (fmt.Sprintln (Value.ip a.IP))
    else
      HTML 200 "index.html" (Obj.keys c.Keys)
  else if f0 = "request" then
    JSON 200 (Obj.request r)
  else if f0 = "all" then
    let c ← Handler.read
    if wantsJSON then
      JSON 200 (Obj.keys c.Keys)
    else
      String1 200 "%v" (Obj.keys c.Keys)
  else do
    let (fieldResult, err) ← Get f0
    (if err then String0 404 "Not Found" else pure ())
    String0 200 (fmt.Sprintln fieldResult)

/-- The address the handler reports: the resolved one, with the IP of the
`CF-Connecting-IP` header in place of its own when that header parses. -/
def reported (a : net.TCPAddr) (r : Request) : net.TCPAddr :=
  if net.ParseIP (Header.Get r.Header "CF-Connecting-IP") ≠ [] then
    { a with IP := net.ParseIP (Header.Get r.Header "CF-Connecting-IP") }
  else a

/-- The map after the ten unconditional `c.Set` calls. -/
def baseKeys (a : net.TCPAddr) (r : Request) : Keys :=
  [("ip", Value.str (net.IP.String a.IP)), ("port", Value.int a.Port),
   ("ua", Value.str r.UserAgent),
   ("lang", Value.str (Header.Get r.Header "Accept-Language")),
   ("encoding", Value.str (Header.Get r.Header "Accept-Encoding")),
   ("method", Value.str r.Method),
   ("mime", Value.str (Header.Get r.Header "Accept")),
   ("referer", Value.str (Header.Get r.Header "Referer")),
   ("forwarded", Value.str (Header.Get r.Header "X-Forwarded-For")),
   ("country_code", Value.str (Header.Get r.Header "CF-IPCountry"))]

/-- The value stored under `host` after a reverse lookup. -/
def hostValue (env : Env) (a : net.TCPAddr) : Value :=
  match env.LookupAddr (net.IP.String a.IP) with
  | none => Value.str ""
  | some names => Value.str names.1

/-- The map when the handler chooses its response. -/
def finalKeys (env : Env) (a : net.TCPAddr) (r : Request) (f0 : String) : Keys :=
  if stringInSlice f0 ["", "all", "host"] = true then baseKeys a r ++ [("host", hostValue env a)]
  else baseKeys a r

/-- The status the handler sends, if it writes at all, and the body it writes. -/
def reply (a : net.TCPAddr) (r : Request) (f0 : String) (rest : List String) (K : Keys) :
    Option Nat × List Chunk :=
  if f0 = "" then
    if (strings.Split r.UserAgent '/').head? = some "curl" then
      (some 200, [Chunk.plain (fmt.Sprintln (Value.ip a.IP))])
    else (some 200, [Chunk.html "index.html" (Obj.keys K)])
  else if f0 = "request" then (none, [])
  else if f0 = "all" then
    if rest.head? = some "json" then (some 200, [Chunk.json (Obj.keys K)])
    else (some 200, [Chunk.formatted "%v" (Obj.keys K)])
  else
    match Keys.get K f0 with
    | some v => (some 200, [Chunk.plain (fmt.Sprintln v)])
    | none => (some 404, [Chunk.plain "Not Found", Chunk.plain (fmt.Sprintln Value.nil)])

/-! ## The vocabulary of the specification -/

/-- The names of the attribute set, `host` last. -/
def vocabulary : List String :=
  ["ip", "port", "ua", "lang", "encoding", "method", "mime", "referer", "forwarded",
   "country_code", "host"]

/-- The attributes copied from a request header, each with the header it is read from. -/
def headerFields : List (String × String) :=
  [("ua", "User-Agent"), ("lang", "Accept-Language"), ("encoding", "Accept-Encoding"),
   ("mime", "Accept"), ("referer", "Referer"), ("forwarded", "X-Forwarded-For"),
   ("country_code", "CF-IPCountry")]

/-- Whether the request carries no header named `name`. -/
def Header.absent (h : Header) (name : String) : Prop :=
  h.lookup (textproto.CanonicalMIMEHeaderKey name) = none

/-! ## Sample inputs -/

/-- The number written in decimal digits, for the port of a sample address. -/
def samplePort : List Char → Nat → Option Nat
  | [], n => some n
  | c :: cs, n =>
    if '0' ≤ c ∧ c ≤ '9' then samplePort cs (n * 10 + (c.toNat - '0'.toNat)) else none

/-- A resolver for the samples: `ResolveTCPAddr` accepts the literal
`a.b.c.d:port` addresses an HTTP server puts in `RemoteAddr` and fails on
anything else; the reverse zone holds one name, for `192.0.2.1`. -/
def sampleEnv : Env where
  ResolveTCPAddr := fun s =>
    match strings.Split s ':' with
    | [host, port] =>
      match net.parseIPv4 host.data, port.data, samplePort port.data 0 with
      | _ :: _, _ :: _, some n =>
        if n ≤ 65535 then some { IP := net.parseIPv4 host.data, Port := n, Zone := "" } else none
      | _, _, _ => none
    | _ => none
  LookupAddr := fun a => if a = "192.0.2.1" then some ("client.example.", []) else none

/-- A GET request for `url` with the given headers, from `remote`. -/
def sampleRequest (url : String) (headers : Header) (remote : String) : Request :=
  { Method := "GET", URL := url, Proto := "HTTP/1.1", Header := headers, RemoteAddr := remote }

/-- The address `192.0.2.1:51234` as `ResolveTCPAddr` returns it. -/
def sampleAddr : net.TCPAddr :=
  { IP := net.IPv4 192 0 2 1, Port := 51234, Zone := "" }

/-! ## Running the handler -/

theorem Handler.bind_run {α β : Type} (m : Handler α) (f : α → Handler β) (c : Context) :
    (m >>= f) c = match m c with
      | Result.ok a c' => f a c'
      | Result.panic e c' => Result.panic e c' := rfl

theorem Handler.pure_run {α : Type} (a : α) (c : Context) :
    (pure a : Handler α) c = Result.ok a c := rfl

/-- The handler is its first part (lines 54 to 74) followed by `lookupHost` and `respond`. -/
theorem mainHandler_parts (env : Env) :
    mainHandler env = (do
      let c ← Handler.read
      let fields := strings.Split (Params.ByName c.Params "field") '.'
      let ip := env.ResolveTCPAddr c.Request.RemoteAddr
      (if ip.isNone then Abort else pure ())
      let cfIP := net.ParseIP (Header.Get c.Request.Header "CF-Connecting-IP")
      let ip ← (if cfIP ≠ [] then do
          let a ← Handler.deref ip
          pure (some { a with IP := cfIP })
        else pure ip : Handler (Option net.TCPAddr))
      let a ← Handler.deref ip
      Set "ip" (Value.str (net.IP.String a.IP))
      Set "port" (Value.int a.Port)
      Set "ua" (Value.str c.Request.UserAgent)
      Set "lang" (Value.str (Header.Get c.Request.Header "Accept-Language"))
      Set "encoding" (Value.str (Header.Get c.Request.Header "Accept-Encoding"))
      Set "method" (Value.str c.Request.Method)
      Set "mime" (Value.str (Header.Get c.Request.Header "Accept"))
      Set "referer" (Value.str (Header.Get c.Request.Header "Referer"))
      Set "forwarded" (Value.str (Header.Get c.Request.Header "X-Forwarded-For"))
      Set "country_code" (Value.str (Header.Get c.Request.Header "CF-IPCountry"))
      let f0 ← Handler.index fields 0
      lookupHost env f0 a
      respond fields c.Request a) := by
  rfl

theorem strings.splitAux_cons (sep : Char) (s cur : List Char) :
    ∃ h t, strings.splitAux sep s cur = h :: t := by
  induction s generalizing cur with
  | nil => exact ⟨_, _, rfl⟩
  | cons c cs ih =>
    unfold strings.splitAux
    split
    · exact ⟨_, _, rfl⟩
    · exact ih _

/-- A split has a first piece. -/
theorem strings.Split_cons (s : String) (sep : Char) :
    ∃ h t, strings.Split s sep = h :: t :=
  strings.splitAux_cons sep s.data []

theorem lookupHost_run (env : Env) (f0 : String) (a : net.TCPAddr) (c : Context) :
    lookupHost env f0 a c = Result.ok ()
      (if stringInSlice f0 ["", "all", "host"] = true then
        { c with Keys := Keys.set c.Keys "host" (hostValue env a),
                 lookups := c.lookups ++ [net.IP.String a.IP] }
       else c) := by
  unfold lookupHost
  by_cases hs : stringInSlice f0 ["", "all", "host"] = true
  · cases hl : env.LookupAddr (net.IP.String a.IP) <;>
      simp only [hs, if_true, Handler.bind_run, LookupAddr, hl, Set, hostValue]
  · simp only [hs, if_false, Handler.pure_run, Bool.false_eq_true]

theorem respond_run (f0 : String) (rest : List String) (r : Request) (a : net.TCPAddr)
    (c : Context) (hc : c.status = none) (hb : c.body = []) (ha : c.aborted = false) :
    respond (f0 :: rest) r a c = Result.ok ()
      { c with status := (reply a r f0 rest c.Keys).1,
               body := (reply a r f0 rest c.Keys).2,
               aborted := decide (f0 = "request") } := by
  obtain ⟨u0, urest, hu⟩ := strings.Split_cons r.UserAgent '/'
  obtain ⟨cr, cp, ck, cab, cs, cbd, cl⟩ := c
  simp only at hc hb ha
  subst hc hb ha
  have hj : (decide ((f0 :: rest).length ≥ 2) && decide ((f0 :: rest).get? 1 = some "json")) =
      decide (rest.head? = some "json") := by
    cases rest <;> simp
  simp only [respond, hj, hu, Handler.index, List.get?_cons_zero, Handler.bind_run,
    Handler.pure_run, reply, List.head?_cons, Option.some.injEq, decide_eq_true_eq]
  by_cases h1 : f0 = ""
  · by_cases h4 : u0 = "curl" <;>
      simp only [h1, h4, if_true, if_false, Handler.bind_run, Handler.pure_run, Handler.read,
        String0, HTML, write, Option.getD_none, List.nil_append,
        decide_eq_false (show ¬ ("" = "request") by decide)]
  · by_cases h2 : f0 = "request"
    · simp only [if_neg h1, if_pos h2, JSON, decide_eq_true h2]
    · by_cases h3 : f0 = "all"
      · by_cases h5 : rest.head? = some "json" <;>
          simp only [if_neg h1, if_neg h2, if_pos h3, h5, if_true, if_false, Handler.bind_run,
            Handler.read, JSON, String1, write, Option.getD_none, List.nil_append,
            decide_eq_false h2]
      · cases hg : Keys.get ck f0 <;>
          simp only [if_neg h1, if_neg h2, if_neg h3, Get, hg, Handler.bind_run,
            Handler.pure_run, String0, write, if_true, if_false, Bool.false_eq_true,
            Option.getD_some, Option.getD_none, List.nil_append, List.append_assoc,
            List.singleton_append, decide_eq_false h2]

theorem baseKeys_sets (v0 v1 v2 v3 v4 v5 v6 v7 v8 v9 : Value) :
    Keys.set (Keys.set (Keys.set (Keys.set (Keys.set (Keys.set (Keys.set (Keys.set (Keys.set
      (Keys.set [] "ip" v0) "port" v1) "ua" v2) "lang" v3) "encoding" v4) "method" v5)
      "mime" v6) "referer" v7) "forwarded" v8) "country_code" v9 =
    [("ip", v0), ("port", v1), ("ua", v2), ("lang", v3), ("encoding", v4), ("method", v5),
     ("mime", v6), ("referer", v7), ("forwarded", v8), ("country_code", v9)] := by
  simp [Keys.set]

/-- With a remote address that resolves to `a`, the handler returns normally;
the final context is given in closed form. -/
theorem mainHandler_valid (env : Env) (req : Request) (ps : Params) (a : net.TCPAddr)
    (f0 : String) (rest : List String)
    (hres : env.ResolveTCPAddr req.RemoteAddr = some a)
    (hf : strings.Split (Params.ByName ps "field") '.' = f0 :: rest) :
    mainHandler env (Context.new req ps) =
      Result.ok ()
        { Request := req, Params := ps,
          Keys := finalKeys env (reported a req) req f0,
          aborted := decide (f0 = "request"),
          status := (reply (reported a req) req f0 rest
            (finalKeys env (reported a req) req f0)).1,
          body := (reply (reported a req) req f0 rest
            (finalKeys env (reported a req) req f0)).2,
          lookups := if stringInSlice f0 ["", "all", "host"] = true
            then [net.IP.String (reported a req).IP] else [] } := by
  by_cases hcf : net.ParseIP (Header.Get req.Header "CF-Connecting-IP") = [] <;>
  by_cases hs : stringInSlice f0 ["", "all", "host"] = true <;>
  simp only [mainHandler_parts, Handler.bind_run, Handler.pure_run, Context.new, hres, hf, hcf,
      Handler.read, Handler.deref, Set, baseKeys_sets, Handler.index, Abort, reported,
      Option.isNone_some, Bool.false_eq_true, if_false, if_true, ne_eq, not_true_eq_false,
      not_false_eq_true, List.get?_cons_zero, lookupHost_run, hs, finalKeys]
  all_goals rw [respond_run _ _ _ _ _ rfl rfl rfl]
  all_goals rfl

/-- With a remote address that does not resolve, the handler calls `c.Abort()`,
goes on, and panics on the nil address before any `c.Set`. -/
theorem mainHandler_invalid (env : Env) (req : Request) (ps : Params)
    (hres : env.ResolveTCPAddr req.RemoteAddr = none) :
    mainHandler env (Context.new req ps) =
      Result.panic "invalid memory address or nil pointer dereference"
        { Context.new req ps with aborted := true } := by
  by_cases hcf : net.ParseIP (Header.Get req.Header "CF-Connecting-IP") = [] <;>
  simp only [mainHandler_parts, Handler.bind_run, Handler.pure_run, Context.new, hres, hcf,
      Handler.read, Handler.deref, Abort, Handler.throw, Option.isNone_none, if_true, if_false,
      ne_eq, not_true_eq_false, not_false_eq_true]

/-- With a remote address that does not resolve, `Logger` aborts the context
before `c.Next()`, so no handler registered after it is run, whatever it is;
`Logger` itself then panics on the nil address when it builds its log line. -/
theorem Logger_invalid (env : Env) (h : Handler Unit) (req : Request) (ps : Params)
    (hres : env.ResolveTCPAddr req.RemoteAddr = none) :
    Logger env [h] (Context.new req ps) =
      Result.panic "invalid memory address or nil pointer dereference"
        { Context.new req ps with aborted := true } := by
  simp only [Logger, Handler.bind_run, Handler.pure_run, Context.new, hres,
      Handler.read, Handler.deref, Abort, Handler.throw, Option.isNone_none, if_true, Next]

/-- With a remote address that resolves, `Logger` adds nothing to what
`mainHandler` does to the context. -/
theorem serve_valid (env : Env) (req : Request) (ps : Params) (a : net.TCPAddr)
    (hres : env.ResolveTCPAddr req.RemoteAddr = some a) :
    serve env (Context.new req ps) = mainHandler env (Context.new req ps) := by
  obtain ⟨f0, rest, hf⟩ := strings.Split_cons (Params.ByName ps "field") '.'
  have hv := mainHandler_valid env req ps a f0 rest hres hf
  have hn : (Context.new req ps).aborted = false := rfl
  have hres' : env.ResolveTCPAddr (Context.new req ps).Request.RemoteAddr = some a := hres
  simp only [serve, Logger, Handler.bind_run, Handler.pure_run, hres', Handler.read,
    Handler.deref, Option.isNone_some, Bool.false_eq_true, if_false, Next, hn, hv]

theorem stringInSlice_host (f0 : String) :
    stringInSlice f0 ["", "all", "host"] = true ↔ f0 = "" ∨ f0 = "all" ∨ f0 = "host" := by
  simp only [stringInSlice]
  constructor
  · intro h
    split_ifs at h with h1 h2 h3
    · exact Or.inl h1.symm
    · exact Or.inr (Or.inl h2.symm)
    · exact Or.inr (Or.inr h3.symm)
  · rintro (h | h | h) <;> subst h <;> decide

theorem Header.Get_absent (h : Header) (name : String) (ha : Header.absent h name) :
    Header.Get h name = "" := by
  unfold Header.absent at ha
  simp only [Header.Get, ha]

theorem net.ParseIP_empty : net.ParseIP "" = [] := rfl

theorem finalKeys_keys (env : Env) (a : net.TCPAddr) (r : Request) (f0 : String) :
    Keys.keys (finalKeys env a r f0) =
      if stringInSlice f0 ["", "all", "host"] = true then vocabulary
      else vocabulary.take 10 := by
  unfold finalKeys
  split <;> rfl

theorem Keys.get_isSome (K : Keys) (k : String) :
    (Keys.get K k).isSome = true ↔ k ∈ Keys.keys K := by
  induction K with
  | nil => simp [Keys.get, Keys.keys]
  | cons e rest ih =>
    obtain ⟨k0, w⟩ := e
    unfold Keys.get
    by_cases hk : k0 = k
    · simp [hk, Keys.keys]
    · have hk' : ¬ k = k0 := fun h => hk h.symm
      simp only [hk, if_false, ih, Keys.keys, List.map_cons, List.mem_cons, hk', false_or]

theorem finalKeys_get_ip (env : Env) (a : net.TCPAddr) (r : Request) (f0 : String) :
    Keys.get (finalKeys env a r f0) "ip" = some (Value.str (net.IP.String a.IP)) := by
  unfold finalKeys
  split <;> simp [baseKeys, Keys.get]

/-! ## The claims -/

/-- C10. For every field path parameter and every User-Agent string, the empty
string included, splitting on `.` respectively `/` yields a non-empty list, so
the accesses `fields[0]` and `ua[0]` of `mainHandler` are in bounds: the index
operation returns on them, and no run of the handler ends in an
index-out-of-range panic. -/
theorem split_index_zero_in_bounds :
    (∀ field : String, strings.Split field '.' ≠ []) ∧
    (∀ ua : String, strings.Split ua '/' ≠ []) ∧
    (∀ (field : String) (c : Context),
      ∃ x, Handler.index (strings.Split field '.') 0 c = Result.ok x c) ∧
    (∀ (ua : String) (c : Context),
      ∃ x, Handler.index (strings.Split ua '/') 0 c = Result.ok x c) ∧
    (∀ (env : Env) (req : Request) (ps : Params) (c : Context),
      mainHandler env (Context.new req ps) ≠ Result.panic "index out of range" c) := by
  refine ⟨?_, ?_, ?_, ?_, ?_⟩
  · intro field
    obtain ⟨h, t, e⟩ := strings.Split_cons field '.'
    simp [e]
  · intro ua
    obtain ⟨h, t, e⟩ := strings.Split_cons ua '/'
    simp [e]
  · intro field c
    obtain ⟨h, t, e⟩ := strings.Split_cons field '.'
    exact ⟨h, by simp only [e, Handler.index, List.get?_cons_zero, Handler.pure_run]⟩
  · intro ua c
    obtain ⟨h, t, e⟩ := strings.Split_cons ua '/'
    exact ⟨h, by simp only [e, Handler.index, List.get?_cons_zero, Handler.pure_run]⟩
  · intro env req ps c
    obtain ⟨f0, rest, hf⟩ := strings.Split_cons (Params.ByName ps "field") '.'
    cases hres : env.ResolveTCPAddr req.RemoteAddr with
    | none =>
      rw [mainHandler_invalid env req ps hres]
      intro h
      injection h with h1 _
      exact absurd h1 (by decide)
    | some a =>
      rw [mainHandler_valid env req ps a f0 rest hres hf]
      intro h
      cases h

/-- C3. For every request with a valid remote address whose `CF-Connecting-IP`
header is absent or has a value that does not parse as an IP address, the
attribute `ip` set by `mainHandler` is the string form of the transport-layer
source IP parsed from the remote address. -/
theorem transport_ip_when_no_cf_ip (env : Env) (req : Request) (ps : Params)
    (a : net.TCPAddr)
    (hres : env.ResolveTCPAddr req.RemoteAddr = some a)
    (hcf : Header.absent req.Header "CF-Connecting-IP" ∨
      net.ParseIP (Header.Get req.Header "CF-Connecting-IP") = []) :
    Keys.get (mainHandler env (Context.new req ps)).ctx.Keys "ip" =
      some (Value.str (net.IP.String a.IP)) := by
  have hp : net.ParseIP (Header.Get req.Header "CF-Connecting-IP") = [] := by
    rcases hcf with h | h
    · rw [Header.Get_absent _ _ h]
      exact net.ParseIP_empty
    · exact h
  obtain ⟨f0, rest, hf⟩ := strings.Split_cons (Params.ByName ps "field") '.'
  rw [mainHandler_valid env req ps a f0 rest hres hf]
  simp only [Result.ctx, finalKeys_get_ip, reported, hp, ne_eq, not_true_eq_false, if_false]

/-- Witness of C3: `GET /ip` from `192.0.2.1:51234`, once without a
`CF-Connecting-IP` header and once with the value `203.0.113.09`, which does
not parse (an octet has a leading zero). -/
theorem transport_ip_when_no_cf_ip_witness :
    sampleEnv.ResolveTCPAddr (sampleRequest "/ip" [] "192.0.2.1:51234").RemoteAddr =
      some sampleAddr ∧
    Header.absent (sampleRequest "/ip" [] "192.0.2.1:51234").Header "CF-Connecting-IP" ∧
    Keys.get (mainHandler sampleEnv (Context.new (sampleRequest "/ip" [] "192.0.2.1:51234")
      [{ Key := "field", Value := "ip" }])).ctx.Keys "ip" = some (Value.str "192.0.2.1") ∧
    Header.Get
      (sampleRequest "/ip" [("Cf-Connecting-Ip", ["203.0.113.09"])] "192.0.2.1:51234").Header
      "CF-Connecting-IP" = "203.0.113.09" ∧
    net.ParseIP "203.0.113.09" = [] ∧
    Keys.get (mainHandler sampleEnv (Context.new
      (sampleRequest "/ip" [("Cf-Connecting-Ip", ["203.0.113.09"])] "192.0.2.1:51234")
      [{ Key := "field", Value := "ip" }])).ctx.Keys "ip" = some (Value.str "192.0.2.1") :=
  ⟨by decide, by rfl,
    transport_ip_when_no_cf_ip sampleEnv (sampleRequest "/ip" [] "192.0.2.1:51234")
      [{ Key := "field", Value := "ip" }] sampleAddr (by decide) (Or.inl (by rfl)),
    by decide, by decide,
    transport_ip_when_no_cf_ip sampleEnv
      (sampleRequest "/ip" [("Cf-Connecting-Ip", ["203.0.113.09"])] "192.0.2.1:51234")
      [{ Key := "field", Value := "ip" }] sampleAddr (by decide) (Or.inr (by decide))⟩

/-- C2 (amended). For every request with a valid remote address that bears a
`CF-Connecting-IP` header whose value parses as an IP address, the attribute
`ip` set by `mainHandler` is the string form (`IP.String`) of the address
parsed from that header, whatever the transport-layer source IP is. -/
theorem cf_connecting_ip_sets_ip (env : Env) (req : Request) (ps : Params)
    (a : net.TCPAddr)
    (hres : env.ResolveTCPAddr req.RemoteAddr = some a)
    (hcf : net.ParseIP (Header.Get req.Header "CF-Connecting-IP") ≠ []) :
    Keys.get (mainHandler env (Context.new req ps)).ctx.Keys "ip" =
      some (Value.str
        (net.IP.String (net.ParseIP (Header.Get req.Header "CF-Connecting-IP")))) := by
  obtain ⟨f0, rest, hf⟩ := strings.Split_cons (Params.ByName ps "field") '.'
  rw [mainHandler_valid env req ps a f0 rest hres hf]
  simp only [Result.ctx, finalKeys_get_ip, reported, hcf, ne_eq, not_false_eq_true, if_true]

/-- Witness of C2 (amended): `GET /ip` from `192.0.2.1:51234` with
`CF-Connecting-IP: 203.0.113.9`. -/
theorem cf_connecting_ip_sets_ip_witness :
    sampleEnv.ResolveTCPAddr
      (sampleRequest "/ip" [("Cf-Connecting-Ip", ["203.0.113.9"])] "192.0.2.1:51234").RemoteAddr =
      some sampleAddr ∧
    net.ParseIP (Header.Get
      (sampleRequest "/ip" [("Cf-Connecting-Ip", ["203.0.113.9"])] "192.0.2.1:51234").Header
      "CF-Connecting-IP") ≠ [] ∧
    Keys.get (mainHandler sampleEnv (Context.new
      (sampleRequest "/ip" [("Cf-Connecting-Ip", ["203.0.113.9"])] "192.0.2.1:51234")
      [{ Key := "field", Value := "ip" }])).ctx.Keys "ip" = some (Value.str "203.0.113.9") :=
  ⟨by decide, by decide,
    cf_connecting_ip_sets_ip sampleEnv
      (sampleRequest "/ip" [("Cf-Connecting-Ip", ["203.0.113.9"])] "192.0.2.1:51234")
      [{ Key := "field", Value := "ip" }] sampleAddr (by decide) (by decide)⟩

/-- Counterexample to C2 as stated: `GET /ip` from `192.0.2.1:51234` with
`CF-Connecting-IP: 2001:DB8::1`. The header parses, and the attribute `ip` is
`2001:db8::1`, which is not the string the client sent. -/
theorem cf_connecting_ip_not_verbatim :
    sampleEnv.ResolveTCPAddr
      (sampleRequest "/ip" [("Cf-Connecting-Ip", ["2001:DB8::1"])] "192.0.2.1:51234").RemoteAddr =
      some sampleAddr ∧
    Header.Get
      (sampleRequest "/ip" [("Cf-Connecting-Ip", ["2001:DB8::1"])] "192.0.2.1:51234").Header
      "CF-Connecting-IP" = "2001:DB8::1" ∧
    net.ParseIP "2001:DB8::1" ≠ [] ∧
    Keys.get (mainHandler sampleEnv (Context.new
      (sampleRequest "/ip" [("Cf-Connecting-Ip", ["2001:DB8::1"])] "192.0.2.1:51234")
      [{ Key := "field", Value := "ip" }])).ctx.Keys "ip" = some (Value.str "2001:db8::1") ∧
    Keys.get (mainHandler sampleEnv (Context.new
      (sampleRequest "/ip" [("Cf-Connecting-Ip", ["2001:DB8::1"])] "192.0.2.1:51234")
      [{ Key := "field", Value := "ip" }])).ctx.Keys "ip" ≠
      some (Value.str (Header.Get
        (sampleRequest "/ip" [("Cf-Connecting-Ip", ["2001:DB8::1"])] "192.0.2.1:51234").Header
        "CF-Connecting-IP")) := by
  refine ⟨by decide, by decide, by decide, ?_, ?_⟩ <;>
  rw [mainHandler_valid sampleEnv _ _ sampleAddr "ip" [] (by decide) (by decide)] <;>
  decide

/-- C5 (amended). For every home-route request (empty field name) with a valid
remote address whose User-Agent text before the first `/` is exactly `curl`
(e.g. `curl/7.79.1`), `mainHandler` responds with status 200 and a plain-text
body equal to the resolved (possibly overridden) IP string, which is also the
attribute `ip`, followed by a newline; the HTML template is not rendered. -/
theorem curl_home_route_plain_ip (env : Env) (req : Request) (ps : Params)
    (a : net.TCPAddr) (rest urest : List String)
    (hres : env.ResolveTCPAddr req.RemoteAddr = some a)
    (hf : strings.Split (Params.ByName ps "field") '.' = "" :: rest)
    (hua : strings.Split req.UserAgent '/' = "curl" :: urest) :
    Keys.get (mainHandler env (Context.new req ps)).ctx.Keys "ip" =
      some (Value.str (net.IP.String (reported a req).IP)) ∧
    (mainHandler env (Context.new req ps)).ctx.status = some 200 ∧
    (mainHandler env (Context.new req ps)).ctx.body =
      [Chunk.plain (net.IP.String (reported a req).IP ++ "\n")] := by
  rw [mainHandler_valid env req ps a "" rest hres hf]
  simp only [Result.ctx, finalKeys_get_ip, reply, hua, List.head?_cons, if_true, fmt.Sprintln,
    fmt.Sprint, and_self]

/-- Witness of C5 (amended): `GET /` from `192.0.2.1:51234` with
`User-Agent: curl/7.79.1`. -/
theorem curl_home_route_plain_ip_witness :
    sampleEnv.ResolveTCPAddr
      (sampleRequest "/" [("User-Agent", ["curl/7.79.1"])] "192.0.2.1:51234").RemoteAddr =
      some sampleAddr ∧
    strings.Split (Params.ByName [] "field") '.' = [""] ∧
    strings.Split
      (sampleRequest "/" [("User-Agent", ["curl/7.79.1"])] "192.0.2.1:51234").UserAgent '/' =
      ["curl", "7.79.1"] ∧
    Keys.get (mainHandler sampleEnv (Context.new
      (sampleRequest "/" [("User-Agent", ["curl/7.79.1"])] "192.0.2.1:51234") [])).ctx.Keys
      "ip" = some (Value.str "192.0.2.1") ∧
    (mainHandler sampleEnv (Context.new
      (sampleRequest "/" [("User-Agent", ["curl/7.79.1"])] "192.0.2.1:51234") [])).ctx.status =
      some 200 ∧
    (mainHandler sampleEnv (Context.new
      (sampleRequest "/" [("User-Agent", ["curl/7.79.1"])] "192.0.2.1:51234") [])).ctx.body =
      [Chunk.plain "192.0.2.1\n"] :=
  ⟨by decide, by decide, by decide,
    curl_home_route_plain_ip sampleEnv
      (sampleRequest "/" [("User-Agent", ["curl/7.79.1"])] "192.0.2.1:51234") [] sampleAddr
      [] ["7.79.1"] (by decide) (by decide) (by decide)⟩

/-- Counterexample to C5 as stated: `GET /` from `192.0.2.1:51234` with
`User-Agent: curly/1.0`. The User-Agent begins with `curl`, and the handler
renders the HTML template instead of writing the bare IP. -/
theorem curl_prefix_gets_html :
    sampleEnv.ResolveTCPAddr
      (sampleRequest "/" [("User-Agent", ["curly/1.0"])] "192.0.2.1:51234").RemoteAddr =
      some sampleAddr ∧
    strings.Split (Params.ByName [] "field") '.' = [""] ∧
    (sampleRequest "/" [("User-Agent", ["curly/1.0"])] "192.0.2.1:51234").UserAgent =
      "curl" ++ "y/1.0" ∧
    (mainHandler sampleEnv (Context.new
      (sampleRequest "/" [("User-Agent", ["curly/1.0"])] "192.0.2.1:51234") [])).ctx.body =
      [Chunk.html "index.html" (Obj.keys (mainHandler sampleEnv (Context.new
        (sampleRequest "/" [("User-Agent", ["curly/1.0"])] "192.0.2.1:51234") [])).ctx.Keys)] ∧
    (mainHandler sampleEnv (Context.new
      (sampleRequest "/" [("User-Agent", ["curly/1.0"])] "192.0.2.1:51234") [])).ctx.body ≠
      [Chunk.plain "192.0.2.1\n"] := by
  refine ⟨by decide, by decide, by decide, ?_, ?_⟩ <;>
  rw [mainHandler_valid sampleEnv _ _ sampleAddr "" [] (by decide) (by decide)] <;>
  decide

/-- For every request with a valid remote address whose first segment is not
empty, `all`, `request` or a name of the vocabulary, the handler sends status
404 and writes `Not Found` followed by the text of the nil `fieldResult`. -/
theorem unknown_field_run (env : Env) (req : Request) (ps : Params) (a : net.TCPAddr)
    (f0 : String) (rest : List String)
    (hres : env.ResolveTCPAddr req.RemoteAddr = some a)
    (hf : strings.Split (Params.ByName ps "field") '.' = f0 :: rest)
    (hk : f0 ∉ "" :: "all" :: "request" :: vocabulary) :
    (mainHandler env (Context.new req ps)).ctx.status = some 404 ∧
    (mainHandler env (Context.new req ps)).ctx.body =
      [Chunk.plain "Not Found", Chunk.plain "<nil>\n"] := by
  simp only [List.mem_cons, not_or] at hk
  obtain ⟨h1, h3, h2, hv⟩ := hk
  have hv' : f0 ∉ vocabulary := by
    simpa only [vocabulary, List.mem_cons, not_or] using hv
  have hn : Keys.get (finalKeys env (reported a req) req f0) f0 = none := by
    have hm : f0 ∉ Keys.keys (finalKeys env (reported a req) req f0) := by
      rw [finalKeys_keys]
      split
      · exact hv'
      · exact fun h => hv' (List.mem_of_mem_take h)
    rw [← Keys.get_isSome] at hm
    exact Option.not_isSome_iff_eq_none.mp hm
  have hr : reply (reported a req) req f0 rest (finalKeys env (reported a req) req f0) =
      (some 404, [Chunk.plain "Not Found", Chunk.plain "<nil>\n"]) := by
    simp only [reply, if_neg h1, if_neg h2, if_neg h3, hn]
    rfl
  rw [mainHandler_valid env req ps a f0 rest hres hf]
  exact ⟨by simp only [Result.ctx, hr], by simp only [Result.ctx, hr]⟩

/-- C1 (the code at the failing input): `GET /nonexistent` from
`192.0.2.1:51234`. The name is not in the vocabulary; the handler sends status
404 and writes `Not Found`, does not return, and writes `<nil>` and a newline
after it. -/
theorem unknown_field_writes_nil_after_not_found :
    sampleEnv.ResolveTCPAddr (sampleRequest "/nonexistent" [] "192.0.2.1:51234").RemoteAddr =
      some sampleAddr ∧
    strings.Split (Params.ByName [{ Key := "field", Value := "nonexistent" }] "field") '.' =
      ["nonexistent"] ∧
    "nonexistent" ∉ "" :: "all" :: "request" :: vocabulary ∧
    (mainHandler sampleEnv (Context.new (sampleRequest "/nonexistent" [] "192.0.2.1:51234")
      [{ Key := "field", Value := "nonexistent" }])).ctx.status = some 404 ∧
    (mainHandler sampleEnv (Context.new (sampleRequest "/nonexistent" [] "192.0.2.1:51234")
      [{ Key := "field", Value := "nonexistent" }])).ctx.body =
      [Chunk.plain "Not Found", Chunk.plain "<nil>\n"] := by
  refine ⟨by decide, by decide, by decide, ?_, ?_⟩ <;>
  rw [mainHandler_valid sampleEnv _ _ sampleAddr "nonexistent" [] (by decide) (by decide)] <;>
  decide

/-- C4. For every request whose remote address fails to parse, request
processing is aborted at the parse failure and `mainHandler` does nothing
after it. In the program the failing call is made first by `Logger`, on the
same address, and its `c.Abort()` keeps `c.Next()` from running the handler
registered after it, whatever that handler is: the run of `Logger` and
`mainHandler` ends with the context as the abort left it, so no attribute is
populated, no later step of the handler is executed (no reverse lookup is
made), and no response is written by the handler. -/
theorem unresolved_remote_addr_stops_processing (env : Env) (req : Request) (ps : Params)
    (hres : env.ResolveTCPAddr req.RemoteAddr = none) :
    (∀ h : Handler Unit,
      Logger env [h] (Context.new req ps) = serve env (Context.new req ps)) ∧
    (serve env (Context.new req ps)).ctx = { Context.new req ps with aborted := true } ∧
    (serve env (Context.new req ps)).ctx.Keys = [] ∧
    (serve env (Context.new req ps)).ctx.lookups = [] ∧
    (serve env (Context.new req ps)).ctx.status = none ∧
    (serve env (Context.new req ps)).ctx.body = [] := by
  have hs := Logger_invalid env (mainHandler env) req ps hres
  refine ⟨fun h => ?_, ?_, ?_, ?_, ?_, ?_⟩
  · rw [serve, Logger_invalid env h req ps hres, hs]
  all_goals rw [serve, hs]
  all_goals rfl

/-- Witness of C4: `GET /ip` with the remote address `bogus`, which does not
resolve. -/
theorem unresolved_remote_addr_stops_processing_witness :
    sampleEnv.ResolveTCPAddr (sampleRequest "/ip" [] "bogus").RemoteAddr = none ∧
    ((∀ h : Handler Unit,
      Logger sampleEnv [h] (Context.new (sampleRequest "/ip" [] "bogus")
        [{ Key := "field", Value := "ip" }]) =
      serve sampleEnv (Context.new (sampleRequest "/ip" [] "bogus")
        [{ Key := "field", Value := "ip" }])) ∧
    (serve sampleEnv (Context.new (sampleRequest "/ip" [] "bogus")
      [{ Key := "field", Value := "ip" }])).ctx =
      { Request := sampleRequest "/ip" [] "bogus",
        Params := [{ Key := "field", Value := "ip" }],
        Keys := [], aborted := true, status := none, body := [], lookups := [] } ∧
    (serve sampleEnv (Context.new (sampleRequest "/ip" [] "bogus")
      [{ Key := "field", Value := "ip" }])).ctx.Keys = [] ∧
    (serve sampleEnv (Context.new (sampleRequest "/ip" [] "bogus")
      [{ Key := "field", Value := "ip" }])).ctx.lookups = [] ∧
    (serve sampleEnv (Context.new (sampleRequest "/ip" [] "bogus")
      [{ Key := "field", Value := "ip" }])).ctx.status = none ∧
    (serve sampleEnv (Context.new (sampleRequest "/ip" [] "bogus")
      [{ Key := "field", Value := "ip" }])).ctx.body = []) :=
  ⟨by decide,
    unresolved_remote_addr_stops_processing sampleEnv (sampleRequest "/ip" [] "bogus")
      [{ Key := "field", Value := "ip" }] (by decide)⟩

theorem fmt.itoa_eq (n : Int) : fmt.itoa n = toString n := by
  cases n <;> rfl

theorem reported_Port (a : net.TCPAddr) (r : Request) : (reported a r).Port = a.Port := by
  unfold reported
  split <;> rfl

/-- C6. For every request with a valid remote address whose requested field
name is one of `ip`, `port`, `ua`, `lang`, `encoding`, `method`, `mime`,
`referer`, `forwarded`, `country_code`, `host`, `mainHandler` responds with
status 200 and a body that is that field's value followed by one newline: the
name is a key of the attribute set, a string value is written as it is and the
int value of `port` in decimal digits. Field by field: `ip` gives the reported
IP string, `port` the port of the resolved address, each header-derived field
the value of its header (for `ua` the User-Agent, whatever characters it
holds, a `%` included), `method` the request method, `host` the first name of
the reverse lookup or nothing when the lookup fails. -/
theorem known_field_plain_value (env : Env) (req : Request) (ps : Params)
    (a : net.TCPAddr) (f0 : String) (rest : List String)
    (hres : env.ResolveTCPAddr req.RemoteAddr = some a)
    (hf : strings.Split (Params.ByName ps "field") '.' = f0 :: rest)
    (hk : f0 ∈ vocabulary) :
    (mainHandler env (Context.new req ps)).ctx.status = some 200 ∧
    (∃ v, Keys.get (mainHandler env (Context.new req ps)).ctx.Keys f0 = some v ∧
      ((∃ s, v = Value.str s ∧
          (mainHandler env (Context.new req ps)).ctx.body = [Chunk.plain (s ++ "\n")]) ∨
        (∃ n, v = Value.int n ∧
          (mainHandler env (Context.new req ps)).ctx.body =
            [Chunk.plain (toString n ++ "\n")]))) ∧
    (f0 = "ip" →
      (mainHandler env (Context.new req ps)).ctx.body =
        [Chunk.plain (net.IP.String (reported a req).IP ++ "\n")]) ∧
    (f0 = "port" →
      (mainHandler env (Context.new req ps)).ctx.body =
        [Chunk.plain (toString a.Port ++ "\n")]) ∧
    (∀ p ∈ headerFields, f0 = p.1 →
      (mainHandler env (Context.new req ps)).ctx.body =
        [Chunk.plain (Header.Get req.Header p.2 ++ "\n")]) ∧
    (f0 = "method" →
      (mainHandler env (Context.new req ps)).ctx.body = [Chunk.plain (req.Method ++ "\n")]) ∧
    (f0 = "host" →
      (env.LookupAddr (net.IP.String (reported a req).IP) = none →
        (mainHandler env (Context.new req ps)).ctx.body = [Chunk.plain "\n"]) ∧
      (∀ names, env.LookupAddr (net.IP.String (reported a req).IP) = some names →
        (mainHandler env (Context.new req ps)).ctx.body =
          [Chunk.plain (names.1 ++ "\n")])) := by
  rw [mainHandler_valid env req ps a f0 rest hres hf]
  simp only [vocabulary, List.mem_cons, List.mem_singleton, List.not_mem_nil, or_false] at hk
  rcases hk with h | h | h | h | h | h | h | h | h | h | h <;> subst h
  case inr.inr.inr.inr.inr.inr.inr.inr.inr.inr =>
    cases hl : env.LookupAddr (net.IP.String (reported a req).IP) <;>
      simp [Result.ctx, reply, finalKeys, baseKeys, Keys.get, stringInSlice, hostValue,
        headerFields, fmt.Sprintln, fmt.Sprint, hl]
  all_goals
    simp [Result.ctx, reply, finalKeys, baseKeys, Keys.get, stringInSlice,
      headerFields, fmt.Sprintln, fmt.Sprint, fmt.itoa_eq, Request.UserAgent, reported_Port]

/-- Witness of C6: `GET /port` from `192.0.2.1:51234`; the body is `51234` and
a newline. -/
theorem known_field_plain_value_witness :
    sampleEnv.ResolveTCPAddr (sampleRequest "/port" [] "192.0.2.1:51234").RemoteAddr =
      some sampleAddr ∧
    strings.Split (Params.ByName [{ Key := "field", Value := "port" }] "field") '.' =
      ["port"] ∧
    "port" ∈ vocabulary ∧
    (mainHandler sampleEnv (Context.new (sampleRequest "/port" [] "192.0.2.1:51234")
      [{ Key := "field", Value := "port" }])).ctx.status = some 200 ∧
    (mainHandler sampleEnv (Context.new (sampleRequest "/port" [] "192.0.2.1:51234")
      [{ Key := "field", Value := "port" }])).ctx.body = [Chunk.plain "51234\n"] :=
  ⟨by decide, by decide, by decide,
    (known_field_plain_value sampleEnv (sampleRequest "/port" [] "192.0.2.1:51234")
      [{ Key := "field", Value := "port" }] sampleAddr "port" [] (by decide) (by decide)
      (by decide)).1,
    (known_field_plain_value sampleEnv (sampleRequest "/port" [] "192.0.2.1:51234")
      [{ Key := "field", Value := "port" }] sampleAddr "port" [] (by decide) (by decide)
      (by decide)).2.2.2.1 rfl⟩

/-- The handler on `GET /ua` from `192.0.2.1:51234` with a User-Agent that holds
`%` characters: the body is the header value and a newline. -/
theorem ua_with_percent_run :
    (mainHandler sampleEnv (Context.new
      (sampleRequest "/ua" [("User-Agent", ["100%s/%d %"])] "192.0.2.1:51234")
      [{ Key := "field", Value := "ua" }])).ctx.status = some 200 ∧
    (mainHandler sampleEnv (Context.new
      (sampleRequest "/ua" [("User-Agent", ["100%s/%d %"])] "192.0.2.1:51234")
      [{ Key := "field", Value := "ua" }])).ctx.body = [Chunk.plain "100%s/%d %\n"] := by
  refine ⟨?_, ?_⟩ <;>
  rw [mainHandler_valid sampleEnv _ _ sampleAddr "ua" [] (by decide) (by decide)] <;>
  decide

theorem finalKeys_get_host (env : Env) (a : net.TCPAddr) (r : Request) (f0 : String) :
    Keys.get (finalKeys env a r f0) "host" =
      if stringInSlice f0 ["", "all", "host"] = true then some (hostValue env a) else none := by
  unfold finalKeys
  split <;> simp [baseKeys, Keys.get]

theorem finalKeys_get_header (env : Env) (a : net.TCPAddr) (r : Request) (f0 : String)
    (p : String × String) (hp : p ∈ headerFields) :
    Keys.get (finalKeys env a r f0) p.1 = some (Value.str (Header.Get r.Header p.2)) := by
  simp only [headerFields, List.mem_cons, List.mem_singleton, List.not_mem_nil, or_false] at hp
  unfold finalKeys
  rcases hp with h | h | h | h | h | h | h <;> subst h <;> split <;>
    simp [baseKeys, Keys.get, Request.UserAgent]

/-- C7. For every request to `/all.json` with a valid remote address, whatever
headers it bears and whether or not the reverse lookup succeeds, the handler
sends status 200 and the JSON serialization of the attribute set, whose keys
are `ip`, `port`, `ua`, `lang`, `encoding`, `method`, `mime`, `referer`,
`forwarded`, `country_code`, `host`, each once and no other; an attribute whose
header is absent is present with the empty string. -/
theorem all_json_key_set (env : Env) (req : Request) (ps : Params) (a : net.TCPAddr)
    (hres : env.ResolveTCPAddr req.RemoteAddr = some a)
    (hp : Params.ByName ps "field" = "all.json") :
    (mainHandler env (Context.new req ps)).ctx.status = some 200 ∧
    (mainHandler env (Context.new req ps)).ctx.body =
      [Chunk.json (Obj.keys (mainHandler env (Context.new req ps)).ctx.Keys)] ∧
    (Keys.keys (mainHandler env (Context.new req ps)).ctx.Keys).Nodup ∧
    (∀ k, k ∈ Keys.keys (mainHandler env (Context.new req ps)).ctx.Keys ↔ k ∈ vocabulary) ∧
    (∀ p ∈ headerFields, Header.absent req.Header p.2 →
      Keys.get (mainHandler env (Context.new req ps)).ctx.Keys p.1 = some (Value.str "")) := by
  have hf : strings.Split (Params.ByName ps "field") '.' = "all" :: ["json"] := by
    rw [hp]
    decide
  have hs : stringInSlice "all" ["", "all", "host"] = true := by decide
  rw [mainHandler_valid env req ps a "all" ["json"] hres hf]
  refine ⟨?_, ?_, ?_, ?_, ?_⟩
  · simp [Result.ctx, reply]
  · simp [Result.ctx, reply]
  · simp only [Result.ctx, finalKeys_keys, hs, if_true]
    decide
  · intro k
    simp only [Result.ctx, finalKeys_keys, hs, if_true]
  · intro p hpm habs
    simp only [Result.ctx]
    rw [finalKeys_get_header env _ req "all" p hpm, Header.Get_absent _ _ habs]

/-- Witness of C7: `GET /all.json` from `192.0.2.1:51234` with no header at all. -/
theorem all_json_key_set_witness :
    sampleEnv.ResolveTCPAddr (sampleRequest "/all.json" [] "192.0.2.1:51234").RemoteAddr =
      some sampleAddr ∧
    Params.ByName [{ Key := "field", Value := "all.json" }] "field" = "all.json" ∧
    (mainHandler sampleEnv (Context.new (sampleRequest "/all.json" [] "192.0.2.1:51234")
      [{ Key := "field", Value := "all.json" }])).ctx.status = some 200 ∧
    (mainHandler sampleEnv (Context.new (sampleRequest "/all.json" [] "192.0.2.1:51234")
      [{ Key := "field", Value := "all.json" }])).ctx.body =
      [Chunk.json (Obj.keys (mainHandler sampleEnv (Context.new
        (sampleRequest "/all.json" [] "192.0.2.1:51234")
        [{ Key := "field", Value := "all.json" }])).ctx.Keys)] ∧
    (Keys.keys (mainHandler sampleEnv (Context.new
      (sampleRequest "/all.json" [] "192.0.2.1:51234")
      [{ Key := "field", Value := "all.json" }])).ctx.Keys).Nodup ∧
    (∀ k, k ∈ Keys.keys (mainHandler sampleEnv (Context.new
      (sampleRequest "/all.json" [] "192.0.2.1:51234")
      [{ Key := "field", Value := "all.json" }])).ctx.Keys ↔ k ∈ vocabulary) ∧
    (∀ p ∈ headerFields,
      Header.absent (sampleRequest "/all.json" [] "192.0.2.1:51234").Header p.2 →
      Keys.get (mainHandler sampleEnv (Context.new
        (sampleRequest "/all.json" [] "192.0.2.1:51234")
        [{ Key := "field", Value := "all.json" }])).ctx.Keys p.1 = some (Value.str "")) :=
  ⟨by decide, by decide,
    all_json_key_set sampleEnv (sampleRequest "/all.json" [] "192.0.2.1:51234")
      [{ Key := "field", Value := "all.json" }] sampleAddr (by decide) (by decide)⟩

/-- C8. For every request with a valid remote address, the reverse lookup is
made, and the key `host` is in the attribute set, if and only if the first
dot-separated segment of the field parameter is empty, `all` or `host`. When it
is made, it is made once, on the reported IP; a failed lookup stores the empty
string under `host`, a successful one the first name. For every other field no
lookup is made and the key `host` is absent. -/
theorem host_lookup_iff_needed (env : Env) (req : Request) (ps : Params) (a : net.TCPAddr)
    (f0 : String) (rest : List String)
    (hres : env.ResolveTCPAddr req.RemoteAddr = some a)
    (hf : strings.Split (Params.ByName ps "field") '.' = f0 :: rest) :
    ((mainHandler env (Context.new req ps)).ctx.lookups ≠ [] ↔
      (f0 = "" ∨ f0 = "all" ∨ f0 = "host")) ∧
    ("host" ∈ Keys.keys (mainHandler env (Context.new req ps)).ctx.Keys ↔
      (f0 = "" ∨ f0 = "all" ∨ f0 = "host")) ∧
    ((f0 = "" ∨ f0 = "all" ∨ f0 = "host") →
      (mainHandler env (Context.new req ps)).ctx.lookups =
        [net.IP.String (reported a req).IP] ∧
      (env.LookupAddr (net.IP.String (reported a req).IP) = none →
        Keys.get (mainHandler env (Context.new req ps)).ctx.Keys "host" =
          some (Value.str "")) ∧
      (∀ names, env.LookupAddr (net.IP.String (reported a req).IP) = some names →
        Keys.get (mainHandler env (Context.new req ps)).ctx.Keys "host" =
          some (Value.str names.1))) ∧
    (¬ (f0 = "" ∨ f0 = "all" ∨ f0 = "host") →
      (mainHandler env (Context.new req ps)).ctx.lookups = [] ∧
      Keys.get (mainHandler env (Context.new req ps)).ctx.Keys "host" = none) := by
  rw [mainHandler_valid env req ps a f0 rest hres hf]
  simp only [Result.ctx, ← Keys.get_isSome, finalKeys_get_host]
  by_cases hs : stringInSlice f0 ["", "all", "host"] = true
  · have hs' := (stringInSlice_host f0).mp hs
    simp only [hs, if_true, hs', hostValue]
    refine ⟨by simp, by simp, fun _ => ⟨trivial, ?_, ?_⟩, fun h => absurd trivial h⟩
    · intro hl
      simp only [hl]
    · intro names hl
      simp only [hl]
  · have hs' : ¬ (f0 = "" ∨ f0 = "all" ∨ f0 = "host") :=
      fun h => hs ((stringInSlice_host f0).mpr h)
    simp only [hs, if_false, hs', Bool.false_eq_true]
    exact ⟨by simp, by simp, fun h => h.elim, fun _ => ⟨trivial, trivial⟩⟩

/-- Witness of C8: `GET /host` from `192.0.2.1:51234`, an address the reverse
zone of the sample resolver names `client.example.`. -/
theorem host_lookup_iff_needed_witness :
    sampleEnv.ResolveTCPAddr (sampleRequest "/host" [] "192.0.2.1:51234").RemoteAddr =
      some sampleAddr ∧
    strings.Split (Params.ByName [{ Key := "field", Value := "host" }] "field") '.' =
      ["host"] ∧
    (((mainHandler sampleEnv (Context.new (sampleRequest "/host" [] "192.0.2.1:51234")
        [{ Key := "field", Value := "host" }])).ctx.lookups ≠ [] ↔
      ("host" = "" ∨ "host" = "all" ∨ "host" = "host")) ∧
    ("host" ∈ Keys.keys (mainHandler sampleEnv (Context.new
        (sampleRequest "/host" [] "192.0.2.1:51234")
        [{ Key := "field", Value := "host" }])).ctx.Keys ↔
      ("host" = "" ∨ "host" = "all" ∨ "host" = "host")) ∧
    (("host" = "" ∨ "host" = "all" ∨ "host" = "host") →
      (mainHandler sampleEnv (Context.new (sampleRequest "/host" [] "192.0.2.1:51234")
        [{ Key := "field", Value := "host" }])).ctx.lookups = ["192.0.2.1"] ∧
      (sampleEnv.LookupAddr "192.0.2.1" = none →
        Keys.get (mainHandler sampleEnv (Context.new
          (sampleRequest "/host" [] "192.0.2.1:51234")
          [{ Key := "field", Value := "host" }])).ctx.Keys "host" = some (Value.str "")) ∧
      (∀ names, sampleEnv.LookupAddr "192.0.2.1" = some names →
        Keys.get (mainHandler sampleEnv (Context.new
          (sampleRequest "/host" [] "192.0.2.1:51234")
          [{ Key := "field", Value := "host" }])).ctx.Keys "host" =
          some (Value.str names.1))) ∧
    (¬ ("host" = "" ∨ "host" = "all" ∨ "host" = "host") →
      (mainHandler sampleEnv (Context.new (sampleRequest "/host" [] "192.0.2.1:51234")
        [{ Key := "field", Value := "host" }])).ctx.lookups = [] ∧
      Keys.get (mainHandler sampleEnv (Context.new
        (sampleRequest "/host" [] "192.0.2.1:51234")
        [{ Key := "field", Value := "host" }])).ctx.Keys "host" = none)) :=
  ⟨by decide, by decide,
    host_lookup_iff_needed sampleEnv (sampleRequest "/host" [] "192.0.2.1:51234")
      [{ Key := "field", Value := "host" }] sampleAddr "host" [] (by decide) (by decide)⟩

theorem reply_congr (a : net.TCPAddr) (r : Request) (f0 : String) (rest1 rest2 : List String)
    (K : Keys)
    (hj : f0 = "all" → (rest1.head? = some "json" ↔ rest2.head? = some "json")) :
    reply a r f0 rest1 K = reply a r f0 rest2 K := by
  unfold reply
  by_cases h3 : f0 = "all"
  · have h := hj h3
    by_cases h5 : rest1.head? = some "json"
    · simp only [h3, h5, h.mp h5, if_true]
    · have h6 : ¬ rest2.head? = some "json" := fun h' => h5 (h.mpr h')
      simp only [h3, h5, h6, if_false]
  · simp only [h3, if_false]

/-- The status and body of a run depend on the request through everything but
its path, and on the field parameter through its first segment and, for
`all`, through whether the second is `json`. -/
theorem response_congr (env : Env) (req1 req2 : Request) (ps1 ps2 : Params)
    (hm : req1.Method = req2.Method) (hh : req1.Header = req2.Header)
    (ha : req1.RemoteAddr = req2.RemoteAddr)
    (hfirst : (strings.Split (Params.ByName ps1 "field") '.').head? =
      (strings.Split (Params.ByName ps2 "field") '.').head?)
    (hsecond : (strings.Split (Params.ByName ps1 "field") '.').head? = some "all" →
      ((strings.Split (Params.ByName ps1 "field") '.').get? 1 = some "json" ↔
        (strings.Split (Params.ByName ps2 "field") '.').get? 1 = some "json")) :
    (mainHandler env (Context.new req1 ps1)).ctx.status =
      (mainHandler env (Context.new req2 ps2)).ctx.status ∧
    (mainHandler env (Context.new req1 ps1)).ctx.body =
      (mainHandler env (Context.new req2 ps2)).ctx.body := by
  obtain ⟨f1, r1, e1⟩ := strings.Split_cons (Params.ByName ps1 "field") '.'
  obtain ⟨f2, r2, e2⟩ := strings.Split_cons (Params.ByName ps2 "field") '.'
  obtain ⟨m1, u1, p1, h1, a1⟩ := req1
  obtain ⟨m2, u2, p2, h2, a2⟩ := req2
  simp only at hm hh ha
  subst hm hh ha
  rw [e1, e2] at hfirst hsecond
  simp only [List.head?_cons, Option.some.injEq, List.get?_cons_succ] at hfirst hsecond
  subst hfirst
  cases hres : env.ResolveTCPAddr a1 with
  | none =>
    rw [mainHandler_invalid env _ ps1 hres, mainHandler_invalid env _ ps2 hres]
    exact ⟨rfl, rfl⟩
  | some a =>
    have hj : f1 = "all" → (r1.head? = some "json" ↔ r2.head? = some "json") := by
      intro h
      have hh : ∀ r : List String, r.get? 0 = r.head? := fun r => by cases r <;> rfl
      have h' := hsecond h
      rw [hh, hh] at h'
      exact h'
    rw [mainHandler_valid env _ ps1 a f1 r1 hres e1,
      mainHandler_valid env _ ps2 a f1 r2 hres e2]
    simp only [Result.ctx]
    rw [reply_congr _ _ f1 r1 r2 _ hj]
    exact ⟨rfl, rfl⟩

/-- C9. The response of `mainHandler` depends on the path only through its
first dot-separated segment and, when that segment is `all`, through whether
the second segment is exactly `json`: for every two requests that differ in
nothing but their path, each routed by `main` with the field parameter its
own path gives, if the two parameters have the same first segment, and that
segment is not `all` or they agree on whether their second segment is `json`,
then status and body are equal. In particular `GET /all.x.json`, with `json`
in the third segment, gets the response of `GET /all`, which is the `%v` text
and not JSON. -/
theorem response_by_first_segment (env : Env) (req1 req2 : Request) (ps1 ps2 : Params)
    (hm : req1.Method = req2.Method) (hp : req1.Proto = req2.Proto)
    (hh : req1.Header = req2.Header) (ha : req1.RemoteAddr = req2.RemoteAddr)
    (hr1 : route req1.URL = some ps1) (hr2 : route req2.URL = some ps2)
    (hfirst : (strings.Split (Params.ByName ps1 "field") '.').head? =
      (strings.Split (Params.ByName ps2 "field") '.').head?)
    (hsecond : (strings.Split (Params.ByName ps1 "field") '.').head? = some "all" →
      ((strings.Split (Params.ByName ps1 "field") '.').get? 1 = some "json" ↔
        (strings.Split (Params.ByName ps2 "field") '.').get? 1 = some "json")) :
    ((mainHandler env (Context.new req1 ps1)).ctx.status =
        (mainHandler env (Context.new req2 ps2)).ctx.status ∧
      (mainHandler env (Context.new req1 ps1)).ctx.body =
        (mainHandler env (Context.new req2 ps2)).ctx.body) ∧
    (∀ (req3 req4 : Request) (ps3 ps4 : Params),
      req3.Method = req4.Method → req3.Proto = req4.Proto → req3.Header = req4.Header →
      req3.RemoteAddr = req4.RemoteAddr →
      req3.URL = "/all.x.json" → req4.URL = "/all" →
      route req3.URL = some ps3 → route req4.URL = some ps4 →
      ((mainHandler env (Context.new req3 ps3)).ctx.status =
          (mainHandler env (Context.new req4 ps4)).ctx.status ∧
        (mainHandler env (Context.new req3 ps3)).ctx.body =
          (mainHandler env (Context.new req4 ps4)).ctx.body) ∧
      (∀ a, env.ResolveTCPAddr req3.RemoteAddr = some a →
        (mainHandler env (Context.new req3 ps3)).ctx.body =
          [Chunk.formatted "%v"
            (Obj.keys (mainHandler env (Context.new req3 ps3)).ctx.Keys)])) := by
  refine ⟨response_congr env req1 req2 ps1 ps2 hm hh ha hfirst hsecond, ?_⟩
  intro req3 req4 ps3 ps4 hm' _ hh' ha' hu3 hu4 hr3 hr4
  rw [hu3] at hr3
  rw [hu4] at hr4
  have hp3 : ps3 = [{ Key := "field", Value := "all.x.json" }] :=
    (Option.some.inj hr3).symm
  have hp4 : ps4 = [{ Key := "field", Value := "all" }] := (Option.some.inj hr4).symm
  subst hp3 hp4
  refine ⟨response_congr env req3 req4 _ _ hm' hh' ha' (by decide) (by decide), ?_⟩
  intro a hres
  rw [mainHandler_valid env req3 _ a "all" ["x", "json"] hres (by decide)]
  simp [Result.ctx, reply]

/-- Witness of C9: `GET /ua.json` and `GET /ua.txt` from `192.0.2.1:51234` with
the same headers; both get the User-Agent and a newline. -/
theorem response_by_first_segment_witness :
    route (sampleRequest "/ua.json" [("User-Agent", ["curl/7.79.1"])]
      "192.0.2.1:51234").URL = some [{ Key := "field", Value := "ua.json" }] ∧
    route (sampleRequest "/ua.txt" [("User-Agent", ["curl/7.79.1"])]
      "192.0.2.1:51234").URL = some [{ Key := "field", Value := "ua.txt" }] ∧
    (strings.Split (Params.ByName [{ Key := "field", Value := "ua.json" }] "field") '.').head? =
      (strings.Split (Params.ByName [{ Key := "field", Value := "ua.txt" }] "field") '.').head? ∧
    (strings.Split (Params.ByName [{ Key := "field", Value := "ua.json" }] "field") '.').head? ≠
      some "all" ∧
    (mainHandler sampleEnv (Context.new
      (sampleRequest "/ua.json" [("User-Agent", ["curl/7.79.1"])] "192.0.2.1:51234")
      [{ Key := "field", Value := "ua.json" }])).ctx.status =
      (mainHandler sampleEnv (Context.new
        (sampleRequest "/ua.txt" [("User-Agent", ["curl/7.79.1"])] "192.0.2.1:51234")
        [{ Key := "field", Value := "ua.txt" }])).ctx.status ∧
    (mainHandler sampleEnv (Context.new
      (sampleRequest "/ua.json" [("User-Agent", ["curl/7.79.1"])] "192.0.2.1:51234")
      [{ Key := "field", Value := "ua.json" }])).ctx.body =
      (mainHandler sampleEnv (Context.new
        (sampleRequest "/ua.txt" [("User-Agent", ["curl/7.79.1"])] "192.0.2.1:51234")
        [{ Key := "field", Value := "ua.txt" }])).ctx.body :=
  ⟨by decide, by decide, by decide, by decide,
    (response_by_first_segment sampleEnv
      (sampleRequest "/ua.json" [("User-Agent", ["curl/7.79.1"])] "192.0.2.1:51234")
      (sampleRequest "/ua.txt" [("User-Agent", ["curl/7.79.1"])] "192.0.2.1:51234")
      [{ Key := "field", Value := "ua.json" }] [{ Key := "field", Value := "ua.txt" }]
      rfl rfl rfl rfl (by decide) (by decide) (by decide)
      (fun h => absurd h (by decide))).1⟩

/-- The handler on `GET /request` and on `GET /request.json` from
`192.0.2.1:51234`: the request does not encode, and neither run writes a
status or a body. -/
theorem request_branch_run :
    (mainHandler sampleEnv (Context.new (sampleRequest "/request" [] "192.0.2.1:51234")
      [{ Key := "field", Value := "request" }])).ctx.status = none ∧
    (mainHandler sampleEnv (Context.new (sampleRequest "/request" [] "192.0.2.1:51234")
      [{ Key := "field", Value := "request" }])).ctx.body = [] ∧
    (mainHandler sampleEnv (Context.new (sampleRequest "/request.json" [] "192.0.2.1:51234")
      [{ Key := "field", Value := "request.json" }])).ctx.status = none ∧
    (mainHandler sampleEnv (Context.new (sampleRequest "/request.json" [] "192.0.2.1:51234")
      [{ Key := "field", Value := "request.json" }])).ctx.body = [] := by
  refine ⟨?_, ?_, ?_, ?_⟩
  · rw [mainHandler_valid sampleEnv _ _ sampleAddr "request" [] (by decide) (by decide)]
    decide
  · rw [mainHandler_valid sampleEnv _ _ sampleAddr "request" [] (by decide) (by decide)]
    decide
  · rw [mainHandler_valid sampleEnv _ _ sampleAddr "request" ["json"] (by decide) (by decide)]
    decide
  · rw [mainHandler_valid sampleEnv _ _ sampleAddr "request" ["json"] (by decide) (by decide)]
    decide

end Ifconfig
